import Mathlib

/-!
Verification of the sequential find/replace engine of `csvreplace.py`.

The program has two core operations:
* the replacement-pair loader (`find_replace_from_csv`, lines 20-39):
  it iterates over the CSV rows, optionally discards a header row, skips
  rows with fewer than two fields or an empty find term after stripping,
  and collects `(find_text, replace_text)` pairs in row order, stripping
  surrounding whitespace from both fields;
* the sequential transformer (lines 77-83): it folds
  `content = content.replace(find_text, replace_text)` over the pair list,
  in list order, on a single working buffer.

We embed both as executable Lean functions.  Python's `str.replace` is
modelled on lists of characters: left-to-right scan, non-overlapping,
resuming after the end of each replacement, with Python's special
behaviour for an empty find string (the replacement is inserted into
every gap).  Warnings printed by the loader are modelled as values of an
inductive `Warning` type carrying the 1-based row number the message
reports.
-/

namespace CsvReplace

/-- Python whitespace characters stripped by `str.strip()` (ASCII range). -/
def isPySpace (c : Char) : Bool :=
  c == ' ' || c == '\t' || c == '\n' || c == '\r' || c == '\u000B' || c == '\u000C'

/-- Python `str.strip()`: remove leading and trailing whitespace. -/
def pyStrip (s : String) : String :=
  ⟨((s.data.dropWhile isPySpace).reverse.dropWhile isPySpace).reverse⟩

/-- Python `str.replace` for an empty find string: the replacement is
inserted before every character and at the end of the string. -/
def emptyFindReplace (r : List Char) : List Char → List Char
  | [] => r
  | c :: cs => r ++ c :: emptyFindReplace r cs

/-- Python `str.replace` for a non-empty find string `f`, on character
lists, with explicit fuel (called with fuel = length of the buffer, which
always suffices because every step consumes at least one character):
scan left to right; at a position where `f` is a prefix, emit `r` and
resume after the matched occurrence; otherwise keep the character and
move one position right.  Occurrences are non-overlapping and scanning
never re-enters the text just substituted. -/
def replFuel (f r : List Char) : Nat → List Char → List Char
  | 0, s => s
  | n + 1, s =>
    match s with
    | [] => []
    | c :: cs =>
      if f.isPrefixOf (c :: cs) then r ++ replFuel f r n ((c :: cs).drop f.length)
      else c :: replFuel f r n cs

/-- Python `content.replace(find_text, replace_text)`: every
non-overlapping literal occurrence of `f` in `s` is replaced by `r`,
scanning left to right. -/
def pyReplace (s f r : String) : String :=
  match f.data with
  | [] => ⟨emptyFindReplace r.data s.data⟩
  | _ => ⟨replFuel f.data r.data s.data.length s.data⟩

/-- The sequential transformer (`csvreplace.py` lines 77-83): fold
`content = content.replace(find_text, replace_text)` over the pair list
in list order, starting from the source buffer. -/
def applyReplacements (source : String) (pairs : List (String × String)) : String :=
  pairs.foldl (fun buf p => pyReplace buf p.1 p.2) source

/-- The warnings the loader can print, with the 1-based row number the
message reports where the message reports one. -/
inductive Warning where
  | emptyAfterHeaderSkip : Warning
  | insufficientColumns : Nat → Warning
  | emptyFindTerm : Nat → Warning
deriving DecidableEq

/-- The row number printed in a warning for the row at 0-based index `i`
of the iterated rows: `i + 2` when a header was skipped, else `i + 1`
(`csvreplace.py` lines 33 and 38). -/
def rowNum (hasHeader : Bool) (i : Nat) : Nat :=
  if hasHeader then i + 2 else i + 1

/-- The loader's row loop (`csvreplace.py` lines 27-39): for the row at
index `i`, a row with at least two fields has both fields stripped; if
the stripped find term is empty the row is skipped with a warning, else
the pair is appended; a row with fewer than two fields is skipped with a
warning.  No row aborts the loop. -/
def processRows (hasHeader : Bool) : Nat → List (List String) → List (String × String) × List Warning
  | _, [] => ([], [])
  | i, row :: rest =>
    let res := processRows hasHeader (i + 1) rest
    match row with
    | f :: r :: _ =>
      if pyStrip f = "" then
        (res.1, Warning.emptyFindTerm (rowNum hasHeader i) :: res.2)
      else
        ((pyStrip f, pyStrip r) :: res.1, res.2)
    | _ =>
      (res.1, Warning.insufficientColumns (rowNum hasHeader i) :: res.2)

/-- The loader (`csvreplace.py` lines 17-39): when `hasHeader` is true
the first row is consumed before the loop; if there is no row to consume
(`StopIteration`) a warning is printed and the loop runs on nothing. -/
def loadReplacementPairs (rows : List (List String)) (hasHeader : Bool) : List (String × String) × List Warning :=
  if hasHeader then
    match rows with
    | [] => ([], [Warning.emptyAfterHeaderSkip])
    | _ :: rest => processRows true 0 rest
  else
    processRows false 0 rows

/-- `hasOccurrence pat s` decides whether `pat` occurs as a contiguous
substring of `s` (Python's `pat in s`). -/
def hasOccurrence (pat : List Char) : List Char → Bool
  | [] => pat.isEmpty
  | c :: cs => pat.isPrefixOf (c :: cs) || hasOccurrence pat cs

/-- `occursIn pat s`: `pat` occurs as a literal substring of `s`. -/
def occursIn (pat s : String) : Bool :=
  hasOccurrence pat.data s.data

/-- Field access `row[j]` as Python performs it, raising `IndexError`
when the index is out of range; used to state that the loader never
raises (the accesses on lines 30-31 are guarded by the length check on
line 28). -/
def getField (row : List String) (j : Nat) : Except String String :=
  match row.get? j with
  | some v => Except.ok v
  | none => Except.error "IndexError: list index out of range"

/-- The loader's row loop with Python's fallible field accesses made
explicit: any out-of-range access would surface as an error value. -/
def processRowsE (hasHeader : Bool) : Nat → List (List String) → Except String (List (String × String) × List Warning)
  | _, [] => Except.ok ([], [])
  | i, row :: rest =>
    if 2 ≤ row.length then
      match getField row 0, getField row 1 with
      | Except.ok f, Except.ok r =>
        match processRowsE hasHeader (i + 1) rest with
        | Except.ok res =>
          if pyStrip f = "" then
            Except.ok (res.1, Warning.emptyFindTerm (rowNum hasHeader i) :: res.2)
          else
            Except.ok ((pyStrip f, pyStrip r) :: res.1, res.2)
        | Except.error e => Except.error e
      | Except.error e, _ => Except.error e
      | _, Except.error e => Except.error e
    else
      match processRowsE hasHeader (i + 1) rest with
      | Except.ok res => Except.ok (res.1, Warning.insufficientColumns (rowNum hasHeader i) :: res.2)
      | Except.error e => Except.error e

/-- The loader with fallible field accesses made explicit. -/
def loadReplacementPairsE (rows : List (List String)) (hasHeader : Bool) : Except String (List (String × String) × List Warning) :=
  if hasHeader then
    match rows with
    | [] => Except.ok ([], [Warning.emptyAfterHeaderSkip])
    | _ :: rest => processRowsE true 0 rest
  else
    processRowsE false 0 rows

end CsvReplace

namespace CsvReplace

/-! ### Helper lemmas -/

/-- The empty pattern occurs in every string. -/
theorem hasOccurrence_nil (s : List Char) : hasOccurrence [] s = true := by
  cases s <;> rfl

/-- A pass of `str.replace` over a buffer that contains no occurrence of
the find text leaves the buffer unchanged, whatever the fuel. -/
theorem replFuel_of_not_occ (f r : List Char) (n : Nat) (s : List Char)
    (h : hasOccurrence f s = false) : replFuel f r n s = s := by
  induction n generalizing s with
  | zero => rfl
  | succ n ih =>
    cases s with
    | nil => rfl
    | cons c cs =>
      rw [hasOccurrence, Bool.or_eq_false_iff] at h
      rw [replFuel]
      simp only [h.1, Bool.false_eq_true, if_false]
      rw [ih cs h.2]

/-- `pyReplace` is the identity when the find text does not occur in the
buffer. -/
theorem pyReplace_of_not_occursIn (s f r : String) (h : occursIn f s = false) :
    pyReplace s f r = s := by
  rw [occursIn] at h
  cases hf : f.data with
  | nil =>
    rw [hf, hasOccurrence_nil] at h
    exact absurd h (by decide)
  | cons c cs =>
    have hr : replFuel f.data r.data s.data.length s.data = s.data :=
      replFuel_of_not_occ _ _ _ _ h
    rw [hf] at hr
    unfold pyReplace
    rw [hf]
    show String.mk (replFuel (c :: cs) r.data s.data.length s.data) = s
    rw [hr]

/-- A buffer containing no occurrence of any find text of the pair list
is a fixed point of the whole transformer. -/
theorem applyReplacements_fixed (t : String) (ps : List (String × String))
    (h : ∀ p ∈ ps, occursIn p.1 t = false) : applyReplacements t ps = t := by
  induction ps with
  | nil => rfl
  | cons p ps ih =>
    have hp : pyReplace t p.1 p.2 = t :=
      pyReplace_of_not_occursIn t p.1 p.2 (h p (List.mem_cons_self p ps))
    show applyReplacements (pyReplace t p.1 p.2) ps = t
    rw [hp]
    exact ih (fun q hq => h q (List.mem_cons_of_mem p hq))

/-- The loop with explicit fallible field accesses never reaches the
error case: the accesses are guarded by the length check. -/
theorem processRowsE_ok (hasHeader : Bool) (rows : List (List String)) (i : Nat) :
    processRowsE hasHeader i rows = Except.ok (processRows hasHeader i rows) := by
  induction rows generalizing i with
  | nil => rfl
  | cons row rest ih =>
    cases row with
    | nil =>
      simp only [processRowsE, List.length_nil, processRows, ih]
      rfl
    | cons f rowTail =>
      cases rowTail with
      | nil =>
        simp only [processRowsE, List.length_cons, List.length_nil, processRows, ih]
        rfl
      | cons r tail =>
        simp only [processRowsE, List.length_cons, getField, List.get?, processRows, ih]
        split
        · split <;> rfl
        · exfalso; omega

/-- The loader with explicit fallible field accesses never errors. -/
theorem loadReplacementPairsE_ok (rows : List (List String)) (hasHeader : Bool) :
    loadReplacementPairsE rows hasHeader = Except.ok (loadReplacementPairs rows hasHeader) := by
  cases hasHeader with
  | false =>
    simp only [loadReplacementPairsE, loadReplacementPairs, if_false, Bool.false_eq_true]
    exact processRowsE_ok false rows 0
  | true =>
    cases rows with
    | nil => rfl
    | cons row rest =>
      simp only [loadReplacementPairsE, loadReplacementPairs, if_true]
      exact processRowsE_ok true rest 0

end CsvReplace

namespace CsvReplace

/-! ### Claims -/

/-- C1: for every source text, applying the transformer with an empty
replacement list returns the source text unchanged (identity transform):
`applyReplacements sourceText [] = sourceText`. -/
theorem C1_passthrough (sourceText : String) :
    applyReplacements sourceText [] = sourceText := rfl

/-- C2: pairs are applied strictly in list order, each pass consuming
the previous pass's output buffer (the transformer on `p :: ps` is the
transformer on `ps` applied to the buffer produced by the single pass
for `p`), so a later pair can match text introduced by an earlier pair:
for pairs `[("a","b"), ("b","c")]` and source `"a"` the result is `"c"`,
not `"b"`. -/
theorem C2_order_sensitivity :
    (∀ (s : String) (p : String × String) (ps : List (String × String)),
      applyReplacements s (p :: ps) = applyReplacements (pyReplace s p.1 p.2) ps) ∧
    applyReplacements "a" [("a", "b"), ("b", "c")] = "c" ∧
    applyReplacements "a" [("a", "b"), ("b", "c")] ≠ "b" :=
  ⟨fun _ _ _ => rfl, by decide, by decide⟩

/-- C3: a single pass replaces every non-overlapping literal occurrence
left to right, resuming after the replacement's end: for pairs
`[("aa","a")]` and source `"aaaa"` the result is `"aa"`, not `"a"`. -/
theorem C3_nonoverlapping :
    applyReplacements "aaaa" [("aa", "a")] = "aa" ∧
    applyReplacements "aaaa" [("aa", "a")] ≠ "a" :=
  ⟨by decide, by decide⟩

/-- C4 counterexample: for the pair list `[("ab","a")]` no find text is
a substring of any replace text, yet on source `"abb"` one application
gives `"ab"` (the replacement's end glues onto the following `"b"`,
recreating the find text) and a second application changes the buffer
again, so the transformer applied twice differs from the transformer
applied once. -/
theorem C4_counterexample :
    occursIn "ab" "a" = false ∧
    applyReplacements "abb" [("ab", "a")] = "ab" ∧
    applyReplacements (applyReplacements "abb" [("ab", "a")]) [("ab", "a")] ≠
      applyReplacements "abb" [("ab", "a")] :=
  ⟨by decide, by decide, by decide⟩

/-- C4 (amended): if no find text of the pair list occurs in the output
of the first application (as the claim's substring side condition was
meant to guarantee, but fails to when a replacement's boundary recreates
a find text), then applying the transformer twice yields the same result
as applying it once. -/
theorem C4_idempotent (s : String) (ps : List (String × String))
    (h : ∀ p ∈ ps, occursIn p.1 (applyReplacements s ps) = false) :
    applyReplacements (applyReplacements s ps) ps = applyReplacements s ps :=
  applyReplacements_fixed _ _ h

/-- Witness for C4 (amended) at source `"a"` and pairs `[("b","c")]`. -/
theorem C4_idempotent_witness :
    applyReplacements (applyReplacements "a" [("b", "c")]) [("b", "c")] =
      applyReplacements "a" [("b", "c")] :=
  C4_idempotent "a" [("b", "c")] (by decide)

/-- C5: a malformed row (fewer than 2 fields) is skipped with a warning
naming its 1-based position and never aborts the load; the remaining
valid rows are still loaded in order: rows `[["x"], ["find","repl"]]`
with no header skip yield exactly the pair list `[("find","repl")]` and
exactly one warning referencing row 1. -/
theorem C5_row_skip :
    loadReplacementPairs [["x"], ["find", "repl"]] false =
      ([("find", "repl")], [Warning.insufficientColumns 1]) := by
  decide

/-- C6: for every accepted row, both the find field and the replace
field are trimmed of surrounding whitespace before the pair is stored. -/
theorem C6_trimming (f r : String) (rest : List String)
    (h : pyStrip f ≠ "") :
    loadReplacementPairs [f :: r :: rest] false = ([(pyStrip f, pyStrip r)], []) := by
  simp [loadReplacementPairs, processRows, h]

/-- Witness for C6 at the row `[" foo ", " bar "]`, which yields the
pair `("foo", "bar")`. -/
theorem C6_trimming_witness :
    pyStrip " foo " ≠ "" ∧
    loadReplacementPairs [[" foo ", " bar "]] false = ([("foo", "bar")], []) :=
  ⟨by decide, (C6_trimming " foo " " bar " [] (by decide)).trans (by decide)⟩

/-- C7 counterexample: for rows `[["h1","h2"]]` with the header skip
enabled, the loader returns an empty pair list but emits NO warning: the
"empty after attempting to skip header" warning is printed only when the
row sequence was already empty before the skip, not when the sequence is
empty after a successful skip. -/
theorem C7_counterexample :
    loadReplacementPairs [["h1", "h2"]] true = ([], []) ∧
    (loadReplacementPairs [["h1", "h2"]] true).2.length ≠ 1 :=
  ⟨by decide, by decide⟩

/-- C7 (amended): when the header skip is enabled the loader discards
the first row; if the row sequence was empty before the skip (so there
is no header row to consume) it returns an empty replacement list
together with a warning; if the sequence becomes empty after a
successful skip, as for rows `[["h1","h2"]]`, it returns an empty
replacement list with no warning. -/
theorem C7_amended :
    (∀ (row : List String) (rest : List (List String)),
      loadReplacementPairs (row :: rest) true = processRows true 0 rest) ∧
    loadReplacementPairs [["h1", "h2"]] true = ([], []) ∧
    loadReplacementPairs [] true = ([], [Warning.emptyAfterHeaderSkip]) :=
  ⟨fun _ _ => rfl, by decide, by decide⟩

/-- C8: the transformer is deterministic: two runs on equal source
strings and equal ordered pair lists produce identical outputs. -/
theorem C8_deterministic (s1 s2 : String) (ps1 ps2 : List (String × String))
    (hs : s1 = s2) (hp : ps1 = ps2) :
    applyReplacements s1 ps1 = applyReplacements s2 ps2 := by
  rw [hs, hp]

/-- Witness for C8 at source `"aa"` and pairs `[("a","b")]`. -/
theorem C8_deterministic_witness :
    applyReplacements "aa" [("a", "b")] = applyReplacements "aa" [("a", "b")] :=
  C8_deterministic "aa" "aa" [("a", "b")] [("a", "b")] rfl rfl

/-- C9: both core operations are total on valid in-memory inputs: the
loader, with Python's fallible field accesses made explicit, never
produces an error value on any row list (every access is guarded), and
the transformer produces a result string on every source and pair
list. -/
theorem C9_total (rows : List (List String)) (hasHeader : Bool)
    (s : String) (ps : List (String × String)) :
    loadReplacementPairsE rows hasHeader = Except.ok (loadReplacementPairs rows hasHeader) ∧
    ∃ t, applyReplacements s ps = t :=
  ⟨loadReplacementPairsE_ok rows hasHeader, ⟨applyReplacements s ps, rfl⟩⟩

/-- C10: for a row with more than two fields, the loader uses only field
0 as the find text and field 1 as the replace text: processing the row
with its extra fields equals processing the row truncated to its first
two fields, so the extra fields are ignored and never cause a skip or a
warning. -/
theorem C10_extra_fields (hasHeader : Bool) (i : Nat) (f r : String)
    (extra : List String) (rest : List (List String)) :
    processRows hasHeader i ((f :: r :: extra) :: rest) =
      processRows hasHeader i ([f, r] :: rest) ∧
    loadReplacementPairs ((f :: r :: extra) :: rest) false =
      loadReplacementPairs ([f, r] :: rest) false :=
  ⟨rfl, rfl⟩

end CsvReplace
